import Mathlib

/-!
Verification of the tool-calling orchestration core of the IntelliHR
RAG/MCP assistant (src/orchestrator.py), shallowly embedded in Lean 4.

External collaborators (the Groq chat-completion endpoint, the three MCP
backend servers, and the Python json library) are modelled as oracles:
arbitrary Lean functions supplied in an `Env` record.  Python exceptions
are modelled by the `PyResult` sum: a Python expression either produces a
value or raises with a message string.
-/

/-- Outcome of evaluating a Python expression: a value, or a raised
exception carrying a message. -/
inductive PyResult (α : Type) where
  | ok (a : α)
  | exn (e : String)
deriving DecidableEq, Repr

namespace PyResult

def bind {α β : Type} : PyResult α → (α → PyResult β) → PyResult β
  | ok a, f => f a
  | exn e, _ => exn e

def isOk {α : Type} : PyResult α → Bool
  | ok _ => true
  | exn _ => false

end PyResult

/-- A JSON-like Python value (the `Dict[str, Any]` payloads that backends
return and the dispatcher wraps). -/
inductive Value where
  | null
  | bool (b : Bool)
  | int (n : Int)
  | str (s : String)
  | arr (xs : List Value)
  | obj (fields : List (String × Value))

/-- Error envelope produced by the dispatcher: the Python dict
`\x7b"error": msg\x7d`. -/
def errorEnvelope (msg : String) : Value :=
  Value.obj [("error", Value.str msg)]

mutual

/-- Models `json.dumps` on our value type (total on this type). -/
def serializeValue : Value → String
  | Value.null => "null"
  | Value.bool b => cond b "true" "false"
  | Value.int n => toString n
  | Value.str s => "\"" ++ s ++ "\""
  | Value.arr xs => "[" ++ serializeArr xs ++ "]"
  | Value.obj fs => "\x7b" ++ serializeObj fs ++ "\x7d"

def serializeArr : List Value → String
  | [] => ""
  | [v] => serializeValue v
  | v :: rest => serializeValue v ++ ", " ++ serializeArr rest

def serializeObj : List (String × Value) → String
  | [] => ""
  | [(k, v)] => "\"" ++ k ++ "\": " ++ serializeValue v
  | (k, v) :: rest => "\"" ++ k ++ "\": " ++ serializeValue v ++ ", " ++ serializeObj rest

end

/-- A parsed tool-argument mapping (the result of `json.loads` on the
serialized arguments). -/
def Args : Type := List (String × Value)

/-- Python subscript `arguments[key]` on a dict: raises `KeyError` when the
key is absent (exception message abstracted to the key name). -/
def pyGetItem (arguments : Args) (key : String) : PyResult Value :=
  match List.lookup key arguments with
  | some v => PyResult.ok v
  | none => PyResult.exn ("KeyError: " ++ key)

/-- One entry of the model response `tool_calls` list: `tc.id`,
`tc.function.name`, `tc.function.arguments` (still serialized). -/
structure ToolCall where
  id : String
  name : String
  arguments : String
deriving DecidableEq, Repr

/-- The fields of `response.choices[0].message` that the orchestrator
reads: nullable text content and an optional list of tool calls. -/
structure ChatMessage where
  content : Option String
  tool_calls : Option (List ToolCall)

/-- One registry entry (the `function` object of a registry dict; the
enclosing `type: function` wrapper is the same constant on all nine
entries and is dropped). -/
structure ToolSpec where
  name : String
  description : String
  parameters : Value

/-- The nine backend operations of the three MCP servers, modelled as
oracles.  Each takes the argument value the dispatcher extracts (or no
argument) and either returns a payload or raises. -/
structure Backends where
  get_employee : Value → PyResult Value
  search_employees : Value → PyResult Value
  get_employees_by_department : Value → PyResult Value
  get_all_employees : PyResult Value
  list_announcements : PyResult Value
  read_announcement : Value → PyResult Value
  search_announcements : Value → PyResult Value
  search_policies : Value → PyResult Value
  list_policies : PyResult Value

/-- Body of `_execute_tool`'s `try` block: the `if`/`elif` chain that
routes a tool name to a backend call, extracting the required argument
first; the final `else` returns the unknown-tool envelope. -/
def execute_tool_body (b : Backends) (tool_name : String) (arguments : Args) :
    PyResult Value :=
  if tool_name == "get_employee" then
    (pyGetItem arguments "employee_id").bind b.get_employee
  else if tool_name == "search_employees" then
    (pyGetItem arguments "name").bind b.search_employees
  else if tool_name == "get_employees_by_department" then
    (pyGetItem arguments "department").bind b.get_employees_by_department
  else if tool_name == "get_all_employees" then
    b.get_all_employees
  else if tool_name == "list_announcements" then
    b.list_announcements
  else if tool_name == "read_announcement" then
    (pyGetItem arguments "filename").bind b.read_announcement
  else if tool_name == "search_announcements" then
    (pyGetItem arguments "keyword").bind b.search_announcements
  else if tool_name == "search_policies" then
    (pyGetItem arguments "query").bind b.search_policies
  else if tool_name == "list_policies" then
    b.list_policies
  else
    PyResult.ok (errorEnvelope ("Unknown tool: " ++ tool_name))

/-- Models `CollegeAssistantOrchestrator._execute_tool`: the body wrapped
in `try`/`except Exception`, converting any raise into the
`Tool execution failed` envelope. -/
def execute_tool (b : Backends) (tool_name : String) (arguments : Args) :
    PyResult Value :=
  match execute_tool_body b tool_name arguments with
  | PyResult.ok v => PyResult.ok v
  | PyResult.exn e => PyResult.ok (errorEnvelope ("Tool execution failed: " ++ e))

/-- Shorthand for a JSON-Schema parameter block of the registry: an object
with `type: object`, the given properties, and the given required list. -/
def paramSchema (props : List (String × Value)) (req : List String) : Value :=
  Value.obj
    [("type", Value.str "object"),
     ("properties", Value.obj props),
     ("required", Value.arr (req.map Value.str))]

/-- Shorthand for one property descriptor of a parameter schema. -/
def propDesc (ty descr : String) : Value :=
  Value.obj [("type", Value.str ty), ("description", Value.str descr)]

/-- Models `_build_tool_registry`: the static nine-entry tool catalog. -/
def tool_registry : List ToolSpec :=
  [⟨"get_employee",
    "Get detailed information about an employee by ID",
    paramSchema
      [("employee_id", propDesc "integer" "The employee ID number")]
      ["employee_id"]⟩,
   ⟨"search_employees",
    "Search for employees by name (partial match)",
    paramSchema
      [("name", propDesc "string" "Name or partial name to search for")]
      ["name"]⟩,
   ⟨"get_employees_by_department",
    "Get all employees in a specific department",
    paramSchema
      [("department",
        propDesc "string" "Department name (e.g., \x27Engineering\x27, \x27HR\x27, \x27Sales\x27)")]
      ["department"]⟩,
   ⟨"get_all_employees",
    "Get a list of all employees in the database",
    paramSchema [] []⟩,
   ⟨"list_announcements",
    "List all available announcement files",
    paramSchema [] []⟩,
   ⟨"read_announcement",
    "Read the full content of a specific announcement file",
    paramSchema
      [("filename",
        propDesc "string" "Name of the announcement file (e.g., \x27holiday_2024.txt\x27)")]
      ["filename"]⟩,
   ⟨"search_announcements",
    "Search announcements by keyword",
    paramSchema
      [("keyword", propDesc "string" "Keyword to search for in announcements")]
      ["keyword"]⟩,
   ⟨"search_policies",
    "Search policy documents. Use this for questions about leave policy, salary policy, or other HR policies.",
    paramSchema
      [("query", propDesc "string" "Natural language question about policies")]
      ["query"]⟩,
   ⟨"list_policies",
    "List all available policy documents",
    paramSchema [] []⟩]

/-- Names of the registry entries, in registry order. -/
def registry_names : List String := tool_registry.map ToolSpec.name

/-- One entry of the conversation history (the dicts the orchestrator
appends).  Assistant turns appended on the tool branch carry a
`tool_calls` key and a non-null content, so they get their own
constructor. -/
inductive Turn where
  | user (content : String)
  | assistant (content : Option String)
  | assistantCalls (content : String) (tool_calls : List ToolCall)
  | toolResult (tool_call_id : String) (content : String)
deriving DecidableEq, Repr

/-- The fixed system instruction of `process_query`. -/
def system_prompt : String :=
  "You are a helpful and confident HR assistant with direct access to:\n\n1. **Employee Database**: Employee information, departments, contact details\n2. **Announcements**: Company announcements, holidays, team events, policy updates\n3. **Policy Documents**: HR policies (leave policy, salary policy, etc.)\n\nYour behavior:\n- Provide direct, accurate answers using the tools available\n- Be concise and professional\n- Format lists clearly with line breaks between items for better readability\n\nBe confident and helpful."

/-- One chat-completion request as the orchestrator builds it: model name,
system message, ordered history, optional tool catalog and tool-choice
mode, and the output-length bound. -/
structure Request where
  model : String
  system : String
  messages : List Turn
  tools : Option (List ToolSpec)
  tool_choice : Option String
  max_tokens : Nat

/-- The first (planning) request of a turn: system message plus history
with the new user turn, with the full tool registry and auto tool choice. -/
def planningRequest (history : List Turn) (user_query : String) : Request :=
  ⟨"llama-3.3-70b-versatile", system_prompt, history ++ [Turn.user user_query],
   some tool_registry, some "auto", 4096⟩

/-- The second (finalization) request: system message plus the extended
history, with no tools and no tool choice. -/
def finalRequest (messages : List Turn) : Request :=
  ⟨"llama-3.3-70b-versatile", system_prompt, messages, none, none, 4096⟩

/-- The external collaborators: the chat-completion endpoint (which may
fail: network error, malformed response), the three backend servers, and
`json.loads` on serialized arguments (which may raise on malformed
input). -/
structure Env where
  llm : Request → PyResult ChatMessage
  backends : Backends
  parse : String → PyResult Args

/-- Result of the tool-execution loop: either all calls processed, or the
loop aborted with a propagated exception.  Both carry the history and the
dispatch log accumulated so far. -/
inductive LoopOutcome where
  | done (history : List Turn) (dispatched : List (String × Args))
  | aborted (history : List Turn) (dispatched : List (String × Args)) (e : String)

/-- The `for tool_call in tool_calls` loop of `process_query`: for each
call, `json.loads` the arguments (an uncaught raise here propagates and
aborts the loop), invoke `_execute_tool`, and append the tool-result turn
with the call's id and the serialized result. -/
def runToolCalls (env : Env) : List Turn → List (String × Args) → List ToolCall →
    LoopOutcome
  | history, dispatched, [] => LoopOutcome.done history dispatched
  | history, dispatched, tc :: rest =>
    match env.parse tc.arguments with
    | PyResult.exn e => LoopOutcome.aborted history dispatched e
    | PyResult.ok args =>
      match execute_tool env.backends tc.name args with
      | PyResult.exn e => LoopOutcome.aborted history dispatched e
      | PyResult.ok v =>
        runToolCalls env
          (history ++ [Turn.toolResult tc.id (serializeValue v)])
          (dispatched ++ [(tc.name, args)]) rest

/-- Observable outcome of one `process_query` call: the conversation
history afterwards, the returned text (or the propagated exception), the
model requests issued, and the tool dispatches performed, in order. -/
structure TurnOutcome where
  history : List Turn
  result : PyResult (Option String)
  requests : List Request
  dispatched : List (String × Args)

/-- Models `CollegeAssistantOrchestrator.process_query`, instrumented to
record the requests issued and the dispatches performed. -/
def process_query (env : Env) (history : List Turn) (user_query : String) :
    TurnOutcome :=
  let history1 := history ++ [Turn.user user_query]
  let req1 := planningRequest history user_query
  match env.llm req1 with
  | PyResult.exn e => ⟨history1, PyResult.exn e, [req1], []⟩
  | PyResult.ok response_message =>
    match response_message.tool_calls with
    | none =>
      ⟨history1 ++ [Turn.assistant response_message.content],
       PyResult.ok response_message.content, [req1], []⟩
    | some [] =>
      ⟨history1 ++ [Turn.assistant response_message.content],
       PyResult.ok response_message.content, [req1], []⟩
    | some (tc :: tcs) =>
      let history2 :=
        history1 ++
          [Turn.assistantCalls (response_message.content.getD "") (tc :: tcs)]
      match runToolCalls env history2 [] (tc :: tcs) with
      | LoopOutcome.aborted h d e => ⟨h, PyResult.exn e, [req1], d⟩
      | LoopOutcome.done history3 dispatched =>
        let req2 := finalRequest history3
        match env.llm req2 with
        | PyResult.exn e => ⟨history3, PyResult.exn e, [req1, req2], dispatched⟩
        | PyResult.ok final_message =>
          ⟨history3 ++ [Turn.assistant final_message.content],
           PyResult.ok final_message.content, [req1, req2], dispatched⟩

/-- Models `reset_conversation`: replaces the history with the empty
list. -/
def reset_conversation (_history : List Turn) : List Turn := []

/-- Reading `conversation_history` (the `get_history` accessor of the
spec surface). -/
def get_history (history : List Turn) : List Turn := history

/-! Helper definitions used in theorem statements. -/

/-- The nine registered tool names, in registry order. -/
def nine_names : List String :=
  ["get_employee", "search_employees", "get_employees_by_department",
   "get_all_employees", "list_announcements", "read_announcement",
   "search_announcements", "search_policies", "list_policies"]

/-- Value of `json.loads(tc.function.arguments)` when it succeeds
(defaulted when it raises; only used under a success hypothesis). -/
def parsedArgs (env : Env) (tc : ToolCall) : Args :=
  match env.parse tc.arguments with
  | PyResult.ok a => a
  | PyResult.exn _ => []

/-- Value the dispatcher returns for one call (defaulted on a raise,
which `execute_tool_total` rules out). -/
def dispatchValue (env : Env) (tc : ToolCall) : Value :=
  match execute_tool env.backends tc.name (parsedArgs env tc) with
  | PyResult.ok v => v
  | PyResult.exn _ => Value.null

/-- The tool-result turn appended for one requested call. -/
def resultTurn (env : Env) (tc : ToolCall) : Turn :=
  Turn.toolResult tc.id (serializeValue (dispatchValue env tc))

/-- The dispatch-log entry recorded for one requested call. -/
def dispatchEntry (env : Env) (tc : ToolCall) : String × Args :=
  (tc.name, parsedArgs env tc)

/-- History component of a loop outcome. -/
def LoopOutcome.hist : LoopOutcome → List Turn
  | LoopOutcome.done h _ => h
  | LoopOutcome.aborted h _ _ => h

/-- Dispatch-log component of a loop outcome. -/
def LoopOutcome.disp : LoopOutcome → List (String × Args)
  | LoopOutcome.done _ d => d
  | LoopOutcome.aborted _ d _ => d

/-- Backends whose nine operations all return the same payload `v`. -/
def constBackends (v : Value) : Backends :=
  ⟨fun _ => PyResult.ok v, fun _ => PyResult.ok v, fun _ => PyResult.ok v,
   PyResult.ok v, PyResult.ok v, fun _ => PyResult.ok v,
   fun _ => PyResult.ok v, fun _ => PyResult.ok v, PyResult.ok v⟩

/-- Backends whose nine operations all raise with message `e`. -/
def raisingBackends (e : String) : Backends :=
  ⟨fun _ => PyResult.exn e, fun _ => PyResult.exn e, fun _ => PyResult.exn e,
   PyResult.exn e, PyResult.exn e, fun _ => PyResult.exn e,
   fun _ => PyResult.exn e, fun _ => PyResult.exn e, PyResult.exn e⟩

/-- Argument mapping carrying every key any registered tool extracts. -/
def fullArgs : Args :=
  [("employee_id", Value.int 1), ("name", Value.str "John"),
   ("department", Value.str "Engineering"), ("filename", Value.str "a.txt"),
   ("keyword", Value.str "holiday"), ("query", Value.str "leave policy")]

/-! Core lemmas about the dispatcher and the tool-execution loop. -/

/-- The dispatcher never raises: the `try`/`except` wrapper converts every
exception of the body into an ok error envelope. -/
theorem execute_tool_total (b : Backends) (tool_name : String) (arguments : Args) :
    ∃ v, execute_tool b tool_name arguments = PyResult.ok v := by
  unfold execute_tool
  cases execute_tool_body b tool_name arguments with
  | ok v => exact ⟨v, rfl⟩
  | exn e => exact ⟨_, rfl⟩

/-- A name outside the nine registered ones falls through the whole
`if`/`elif` chain to the unknown-tool envelope. -/
theorem execute_tool_unknown (b : Backends) (tool_name : String) (arguments : Args)
    (h : tool_name ∉ nine_names) :
    execute_tool b tool_name arguments =
      PyResult.ok (errorEnvelope ("Unknown tool: " ++ tool_name)) := by
  simp only [nine_names, List.mem_cons, List.mem_singleton, not_or] at h
  obtain ⟨h1, h2, h3, h4, h5, h6, h7, h8, h9⟩ := h
  unfold execute_tool execute_tool_body
  simp [h1, h2, h3, h4, h5, h6, h7, h8, h9]

/-- When every requested call's arguments parse, the loop completes,
appending one tool-result turn per call in request order and logging one
dispatch per call in request order. -/
theorem runToolCalls_all_ok (env : Env) (calls : List ToolCall)
    (hp : ∀ tc ∈ calls, (env.parse tc.arguments).isOk = true) :
    ∀ history dispatched,
      runToolCalls env history dispatched calls =
        LoopOutcome.done (history ++ calls.map (resultTurn env))
          (dispatched ++ calls.map (dispatchEntry env)) := by
  induction calls with
  | nil => intro history dispatched; simp [runToolCalls]
  | cons tc rest ih =>
    intro history dispatched
    have htc := hp tc (List.mem_cons_self tc rest)
    unfold runToolCalls
    cases hparse : env.parse tc.arguments with
    | exn e => rw [hparse] at htc; simp [PyResult.isOk] at htc
    | ok args =>
      obtain ⟨v, hv⟩ := execute_tool_total env.backends tc.name args
      dsimp only
      rw [hv]
      dsimp only
      rw [ih (fun t ht => hp t (List.mem_cons_of_mem tc ht))]
      have hargs : parsedArgs env tc = args := by
        unfold parsedArgs; rw [hparse]
      have hrt : resultTurn env tc = Turn.toolResult tc.id (serializeValue v) := by
        unfold resultTurn dispatchValue
        rw [hargs, hv]
      have hde : dispatchEntry env tc = (tc.name, args) := by
        unfold dispatchEntry; rw [hargs]
      simp [hrt, hde]

/-- When the calls split as `pre ++ bad :: post` with every call of `pre`
parsing and `bad` failing to parse, the loop aborts exactly at `bad`: the
exception propagates, `pre`'s result turns are in history, and neither
`bad` nor any call of `post` gets a tool-result turn or a dispatch. -/
theorem runToolCalls_abort (env : Env) (pre : List ToolCall) (bad : ToolCall)
    (post : List ToolCall) (e : String)
    (hp : ∀ tc ∈ pre, (env.parse tc.arguments).isOk = true)
    (hbad : env.parse bad.arguments = PyResult.exn e) :
    ∀ history dispatched,
      runToolCalls env history dispatched (pre ++ bad :: post) =
        LoopOutcome.aborted (history ++ pre.map (resultTurn env))
          (dispatched ++ pre.map (dispatchEntry env)) e := by
  induction pre with
  | nil =>
    intro history dispatched
    simp only [List.nil_append, List.map_nil, List.append_nil]
    unfold runToolCalls
    rw [hbad]
  | cons tc rest ih =>
    intro history dispatched
    have htc := hp tc (List.mem_cons_self tc rest)
    rw [List.cons_append]
    unfold runToolCalls
    cases hparse : env.parse tc.arguments with
    | exn e2 => rw [hparse] at htc; simp [PyResult.isOk] at htc
    | ok args =>
      obtain ⟨v, hv⟩ := execute_tool_total env.backends tc.name args
      dsimp only
      rw [hv]
      dsimp only
      rw [ih (fun t ht => hp t (List.mem_cons_of_mem tc ht))]
      have hargs : parsedArgs env tc = args := by
        unfold parsedArgs; rw [hparse]
      have hrt : resultTurn env tc = Turn.toolResult tc.id (serializeValue v) := by
        unfold resultTurn dispatchValue
        rw [hargs, hv]
      have hde : dispatchEntry env tc = (tc.name, args) := by
        unfold dispatchEntry; rw [hargs]
      simp [hrt, hde]

/-- A list is an initial segment of itself extended on the right. -/
theorem appendExtends (l t : List Turn) : l <+: l ++ t := ⟨t, rfl⟩

/-- A list is an initial segment of itself. -/
theorem selfExtends (l : List Turn) : l <+: l := ⟨[], List.append_nil l⟩

/-- The loop only appends to the history it is given. -/
theorem runToolCalls_extends_hist (env : Env) (calls : List ToolCall) :
    ∀ history dispatched,
      history <+: (runToolCalls env history dispatched calls).hist := by
  induction calls with
  | nil => intro history dispatched; simp [runToolCalls, LoopOutcome.hist]
  | cons tc rest ih =>
    intro history dispatched
    unfold runToolCalls
    cases hparse : env.parse tc.arguments with
    | exn e => dsimp only; simp [LoopOutcome.hist]
    | ok args =>
      dsimp only
      cases hex : execute_tool env.backends tc.name args with
      | exn e => dsimp only; simp [LoopOutcome.hist]
      | ok v =>
        dsimp only
        exact (appendExtends history _).trans (ih _ _)

/-- Every dispatch the loop logs names one of the requested calls, and at
most one dispatch is logged per requested call. -/
theorem runToolCalls_disp_shape (env : Env) (calls : List ToolCall) :
    ∀ history dispatched,
      ∃ extra, (runToolCalls env history dispatched calls).disp =
          dispatched ++ extra ∧
        extra.length ≤ calls.length ∧
        ∀ p ∈ extra, p.1 ∈ calls.map ToolCall.name := by
  induction calls with
  | nil =>
    intro history dispatched
    exact ⟨[], by simp [runToolCalls, LoopOutcome.disp], by simp, by simp⟩
  | cons tc rest ih =>
    intro history dispatched
    unfold runToolCalls
    cases hparse : env.parse tc.arguments with
    | exn e => exact ⟨[], by dsimp only; simp [LoopOutcome.disp], by simp, by simp⟩
    | ok args =>
      dsimp only
      cases hex : execute_tool env.backends tc.name args with
      | exn e => exact ⟨[], by dsimp only; simp [LoopOutcome.disp], by simp, by simp⟩
      | ok v =>
        dsimp only
        obtain ⟨extra, hd, hlen, hnames⟩ :=
          ih (history ++ [Turn.toolResult tc.id (serializeValue v)])
            (dispatched ++ [(tc.name, args)])
        refine ⟨(tc.name, args) :: extra, ?_, ?_, ?_⟩
        · rw [hd]; simp
        · simpa using Nat.succ_le_succ hlen
        · intro p hp
          rcases List.mem_cons.mp hp with h | h
          · subst h; simp
          · simp only [List.map_cons, List.mem_cons]
            exact Or.inr (hnames p h)

/-- The loop aborts only when `json.loads` raises on some requested
call's arguments, and the loop's exception is that parse exception. -/
theorem runToolCalls_aborted_parse (env : Env) (calls : List ToolCall) :
    ∀ history dispatched h d e,
      runToolCalls env history dispatched calls = LoopOutcome.aborted h d e →
      ∃ tc ∈ calls, env.parse tc.arguments = PyResult.exn e := by
  induction calls with
  | nil =>
    intro history dispatched h d e hrun
    simp [runToolCalls] at hrun
  | cons tc rest ih =>
    intro history dispatched h d e hrun
    unfold runToolCalls at hrun
    cases hparse : env.parse tc.arguments with
    | exn e2 =>
      rw [hparse] at hrun
      dsimp only at hrun
      cases hrun
      exact ⟨tc, List.mem_cons_self tc rest, hparse⟩
    | ok args =>
      rw [hparse] at hrun
      dsimp only at hrun
      obtain ⟨v, hv⟩ := execute_tool_total env.backends tc.name args
      rw [hv] at hrun
      dsimp only at hrun
      obtain ⟨tc2, htc2, hp2⟩ := ih _ _ _ _ _ hrun
      exact ⟨tc2, List.mem_cons_of_mem tc htc2, hp2⟩

/-! Characterizations of `process_query`, one per control-flow path. -/

/-- Path where the planning call raises: only the user turn was appended,
no request beyond the planning one was made, nothing was dispatched. -/
theorem process_query_planning_exn (env : Env) (history : List Turn)
    (user_query : String) (e : String)
    (hplan : env.llm (planningRequest history user_query) = PyResult.exn e) :
    process_query env history user_query =
      ⟨history ++ [Turn.user user_query], PyResult.exn e,
       [planningRequest history user_query], []⟩ := by
  unfold process_query
  dsimp only
  rw [hplan]

/-- Path where the planning response carries no tool calls (a null or
empty `tool_calls`): the user turn and one assistant turn carrying the
response content are appended, and that content is returned. -/
theorem process_query_no_tools (env : Env) (history : List Turn)
    (user_query : String) (msg : ChatMessage)
    (hplan : env.llm (planningRequest history user_query) = PyResult.ok msg)
    (hcalls : msg.tool_calls = none ∨ msg.tool_calls = some []) :
    process_query env history user_query =
      ⟨history ++ [Turn.user user_query, Turn.assistant msg.content],
       PyResult.ok msg.content, [planningRequest history user_query], []⟩ := by
  unfold process_query
  dsimp only
  rw [hplan]
  dsimp only
  rcases hcalls with h | h <;> rw [h] <;> simp

/-- History after the assistant tool-request turn is appended. -/
def historyWithRequest (history : List Turn) (user_query : String)
    (msg : ChatMessage) (calls : List ToolCall) : List Turn :=
  history ++ [Turn.user user_query,
    Turn.assistantCalls (msg.content.getD "") calls]

/-- History after all tool-result turns are appended. -/
def historyWithResults (env : Env) (history : List Turn) (user_query : String)
    (msg : ChatMessage) (calls : List ToolCall) : List Turn :=
  historyWithRequest history user_query msg calls ++ calls.map (resultTurn env)

/-- Path where tools are requested, every call's arguments parse, and the
finalization call succeeds: the full turn completes. -/
theorem process_query_tools_ok (env : Env) (history : List Turn)
    (user_query : String) (msg fin : ChatMessage) (tc : ToolCall)
    (tcs : List ToolCall)
    (hplan : env.llm (planningRequest history user_query) = PyResult.ok msg)
    (hcalls : msg.tool_calls = some (tc :: tcs))
    (hp : ∀ c ∈ tc :: tcs, (env.parse c.arguments).isOk = true)
    (hfin : env.llm (finalRequest
        (historyWithResults env history user_query msg (tc :: tcs))) =
      PyResult.ok fin) :
    process_query env history user_query =
      ⟨historyWithResults env history user_query msg (tc :: tcs) ++
         [Turn.assistant fin.content],
       PyResult.ok fin.content,
       [planningRequest history user_query,
        finalRequest (historyWithResults env history user_query msg (tc :: tcs))],
       (tc :: tcs).map (dispatchEntry env)⟩ := by
  unfold process_query
  dsimp only
  rw [hplan]
  dsimp only
  rw [hcalls]
  dsimp only
  rw [runToolCalls_all_ok env (tc :: tcs) hp]
  dsimp only
  have hh : (history ++ [Turn.user user_query]) ++
      [Turn.assistantCalls (msg.content.getD "") (tc :: tcs)] ++
      (tc :: tcs).map (resultTurn env) =
      historyWithResults env history user_query msg (tc :: tcs) := by
    unfold historyWithResults historyWithRequest
    simp
  rw [hh]
  rw [hfin]
  simp

/-- Path where tools are requested, every call's arguments parse, and the
finalization call raises: history keeps the user turn, the assistant
tool-request turn and all tool-result turns, but no final assistant
turn. -/
theorem process_query_final_exn (env : Env) (history : List Turn)
    (user_query : String) (msg : ChatMessage) (tc : ToolCall)
    (tcs : List ToolCall) (e : String)
    (hplan : env.llm (planningRequest history user_query) = PyResult.ok msg)
    (hcalls : msg.tool_calls = some (tc :: tcs))
    (hp : ∀ c ∈ tc :: tcs, (env.parse c.arguments).isOk = true)
    (hfin : env.llm (finalRequest
        (historyWithResults env history user_query msg (tc :: tcs))) =
      PyResult.exn e) :
    process_query env history user_query =
      ⟨historyWithResults env history user_query msg (tc :: tcs),
       PyResult.exn e,
       [planningRequest history user_query,
        finalRequest (historyWithResults env history user_query msg (tc :: tcs))],
       (tc :: tcs).map (dispatchEntry env)⟩ := by
  unfold process_query
  dsimp only
  rw [hplan]
  dsimp only
  rw [hcalls]
  dsimp only
  rw [runToolCalls_all_ok env (tc :: tcs) hp]
  dsimp only
  have hh : (history ++ [Turn.user user_query]) ++
      [Turn.assistantCalls (msg.content.getD "") (tc :: tcs)] ++
      (tc :: tcs).map (resultTurn env) =
      historyWithResults env history user_query msg (tc :: tcs) := by
    unfold historyWithResults historyWithRequest
    simp
  rw [hh]
  rw [hfin]
  simp

/-- Path where tools are requested and one call's arguments fail to
parse: the `json.loads` exception propagates, aborting the turn with only
the earlier calls' tool-result turns appended, no finalization request,
and no dispatch for the failing call or later ones. -/
theorem process_query_parse_exn (env : Env) (history : List Turn)
    (user_query : String) (msg : ChatMessage) (pre : List ToolCall)
    (bad : ToolCall) (post : List ToolCall) (e : String)
    (hplan : env.llm (planningRequest history user_query) = PyResult.ok msg)
    (hcalls : msg.tool_calls = some (pre ++ bad :: post))
    (hp : ∀ c ∈ pre, (env.parse c.arguments).isOk = true)
    (hbad : env.parse bad.arguments = PyResult.exn e) :
    process_query env history user_query =
      ⟨historyWithRequest history user_query msg (pre ++ bad :: post) ++
         pre.map (resultTurn env),
       PyResult.exn e,
       [planningRequest history user_query],
       pre.map (dispatchEntry env)⟩ := by
  unfold process_query
  dsimp only
  rw [hplan]
  dsimp only
  cases hsplit : pre ++ bad :: post with
  | nil => exact absurd hsplit (by simp)
  | cons tc tcs =>
    rw [hcalls, hsplit]
    dsimp only
    rw [← hsplit, runToolCalls_abort env pre bad post e hp hbad]
    unfold historyWithRequest
    simp

/-! Concrete environments used by witnesses and counterexamples. -/

/-- A requested call of `get_all_employees` with well-formed (empty
object) serialized arguments. -/
def call_all : ToolCall := ⟨"call_1", "get_all_employees", "\x7b\x7d"⟩

/-- A requested call whose serialized arguments are malformed. -/
def badCall : ToolCall := ⟨"c1", "get_all_employees", "not json"⟩

/-- A well-formed requested call following the malformed one. -/
def goodCall : ToolCall := ⟨"c2", "list_policies", "\x7b\x7d"⟩

/-- Environment whose model always answers directly with text. -/
def envDirect : Env :=
  ⟨fun _ => PyResult.ok ⟨some "Hi there", none⟩,
   constBackends Value.null, fun _ => PyResult.ok []⟩

/-- Environment whose model requests one tool call when offered tools
(with a null planning content) and answers with text otherwise. -/
def env1 : Env :=
  ⟨fun req => match req.tools with
    | some _ => PyResult.ok ⟨none, some [call_all]⟩
    | none => PyResult.ok ⟨some "done", none⟩,
   constBackends (Value.str "data"), fun _ => PyResult.ok []⟩

/-- Environment whose model requests a malformed-arguments call followed
by a well-formed one; parsing raises on the malformed arguments. -/
def env3 : Env :=
  ⟨fun req => match req.tools with
    | some _ => PyResult.ok ⟨none, some [badCall, goodCall]⟩
    | none => PyResult.ok ⟨some "done", none⟩,
   constBackends (Value.str "data"),
   fun s => if s == "\x7b\x7d" then PyResult.ok [] else PyResult.exn "JSONDecodeError"⟩

/-- Environment whose model answers directly with a null content. -/
def envNull : Env :=
  ⟨fun _ => PyResult.ok ⟨none, none⟩, constBackends Value.null,
   fun _ => PyResult.ok []⟩

/-- The registry names are exactly the nine expected ones. -/
theorem registry_names_eq : registry_names = nine_names := rfl

/-! Claim theorems. -/

/-- C2: for every user turn whose planning call requests no tool calls,
`process_query` grows the history by exactly 2 entries — the user turn,
then one assistant turn — and the returned text equals the content of
that appended assistant turn. -/
theorem no_tool_turn_growth (env : Env) (history : List Turn) (q : String)
    (msg : ChatMessage)
    (hplan : env.llm (planningRequest history q) = PyResult.ok msg)
    (hcalls : msg.tool_calls = none ∨ msg.tool_calls = some []) :
    (process_query env history q).history =
      history ++ [Turn.user q, Turn.assistant msg.content] ∧
    (process_query env history q).history.length = history.length + 2 ∧
    (process_query env history q).result = PyResult.ok msg.content := by
  rw [process_query_no_tools env history q msg hplan hcalls]
  exact ⟨rfl, by simp, rfl⟩

/-- Witness for C2 at a concrete environment. -/
theorem no_tool_turn_growth_witness :
    (process_query envDirect [] "Hello").history =
      [Turn.user "Hello", Turn.assistant (some "Hi there")] ∧
    (process_query envDirect [] "Hello").result =
      PyResult.ok (some "Hi there") := by
  have h := no_tool_turn_growth envDirect [] "Hello"
    ⟨some "Hi there", none⟩ rfl (Or.inl rfl)
  exact ⟨by simpa using h.1, h.2.2⟩

/-- C3: the dispatcher is total over tool name and arguments: it always
returns a value (never propagates an exception), and whenever the body —
argument extraction or the backend call — raises, the returned value is
the error envelope wrapping the exception message. -/
theorem dispatcher_total (b : Backends) (tool_name : String)
    (arguments : Args) :
    (∃ v, execute_tool b tool_name arguments = PyResult.ok v) ∧
    (∀ e, execute_tool_body b tool_name arguments = PyResult.exn e →
      execute_tool b tool_name arguments =
        PyResult.ok (errorEnvelope ("Tool execution failed: " ++ e))) := by
  refine ⟨execute_tool_total b tool_name arguments, ?_⟩
  intro e he
  unfold execute_tool
  rw [he]

/-- Witness for C3: arguments missing the required key make the body
raise, and the dispatcher converts the raise into an error envelope. -/
theorem dispatcher_total_witness :
    (∃ v, execute_tool (constBackends Value.null) "get_employee" [] =
      PyResult.ok v) ∧
    execute_tool (constBackends Value.null) "get_employee" [] =
      PyResult.ok (errorEnvelope
        ("Tool execution failed: " ++ "KeyError: employee_id")) := by
  have h := dispatcher_total (constBackends Value.null) "get_employee" []
  exact ⟨h.1, h.2 "KeyError: employee_id" rfl⟩

/-- C5: dispatching a tool name outside the registry's nine names never
raises and returns exactly the unknown-tool error envelope naming the
tool. -/
theorem unknown_tool_error (b : Backends) (tool_name : String)
    (arguments : Args) (h : tool_name ∉ registry_names) :
    execute_tool b tool_name arguments =
      PyResult.ok (errorEnvelope ("Unknown tool: " ++ tool_name)) := by
  apply execute_tool_unknown
  rw [← registry_names_eq]
  exact h

/-- Witness for C5 at a concrete unknown name. -/
theorem unknown_tool_error_witness :
    execute_tool (constBackends Value.null) "frobnicate" [] =
      PyResult.ok (errorEnvelope ("Unknown tool: " ++ "frobnicate")) :=
  unknown_tool_error (constBackends Value.null) "frobnicate" [] (by decide)

/-- C8: `reset_conversation` followed by reading the history yields the
empty sequence, whatever the history held before. -/
theorem reset_then_empty (history : List Turn) :
    get_history (reset_conversation history) = [] := rfl

/-- C9: the registry built at construction has exactly the nine expected
tool names, pairwise distinct; every one of the nine names reaches a
backend-dispatch branch of the dispatcher (the backend's payload comes
back); and only names outside the nine reach the unknown-tool branch. -/
theorem registry_dispatch_coverage :
    registry_names = nine_names ∧
    registry_names.Nodup ∧
    (∀ v : Value, ∀ name ∈ nine_names,
      execute_tool (constBackends v) name fullArgs = PyResult.ok v) ∧
    (∀ (b : Backends) (arguments : Args) (name : String),
      name ∉ nine_names →
      execute_tool b name arguments =
        PyResult.ok (errorEnvelope ("Unknown tool: " ++ name))) := by
  refine ⟨rfl, by decide, ?_, ?_⟩
  · intro v name hname
    fin_cases hname <;> rfl
  · intro b arguments name h
    exact execute_tool_unknown b name arguments h

/-- Witness for C9 at one registered and one unregistered name. -/
theorem registry_dispatch_coverage_witness :
    execute_tool (constBackends (Value.str "payload")) "search_policies"
      fullArgs = PyResult.ok (Value.str "payload") ∧
    execute_tool (constBackends (Value.str "payload")) "made_up_tool"
      fullArgs =
      PyResult.ok (errorEnvelope ("Unknown tool: " ++ "made_up_tool")) :=
  ⟨registry_dispatch_coverage.2.2.1 (Value.str "payload") "search_policies"
    (by decide),
   registry_dispatch_coverage.2.2.2 (constBackends (Value.str "payload"))
    fullArgs "made_up_tool" (by decide)⟩

/-- On the tool branch the assistant tool-request turn is in history
whatever happens later in the turn. -/
theorem process_query_toolreq_kept (env : Env) (history : List Turn)
    (q : String) (msg : ChatMessage) (tc : ToolCall) (tcs : List ToolCall)
    (hplan : env.llm (planningRequest history q) = PyResult.ok msg)
    (hcalls : msg.tool_calls = some (tc :: tcs)) :
    historyWithRequest history q msg (tc :: tcs) <+:
      (process_query env history q).history := by
  unfold process_query
  dsimp only
  rw [hplan]
  dsimp only
  rw [hcalls]
  dsimp only
  have hH : (history ++ [Turn.user q]) ++
      [Turn.assistantCalls (msg.content.getD "") (tc :: tcs)] =
      historyWithRequest history q msg (tc :: tcs) := by
    unfold historyWithRequest; simp
  rw [hH]
  have hpre := runToolCalls_extends_hist env (tc :: tcs)
    (historyWithRequest history q msg (tc :: tcs)) []
  cases hrun : runToolCalls env (historyWithRequest history q msg (tc :: tcs))
      [] (tc :: tcs) with
  | aborted h d e =>
    rw [hrun] at hpre
    simpa [LoopOutcome.hist] using hpre
  | done h3 d =>
    rw [hrun] at hpre
    simp only [LoopOutcome.hist] at hpre
    dsimp only
    cases hfin : env.llm (finalRequest h3) with
    | exn e => exact hpre
    | ok fin =>
      dsimp only
      exact hpre.trans (appendExtends h3 _)

/-- C10: when the planning response carries no tool calls and a null
content, that null is appended and returned verbatim; on the tool branch
an absent content is normalized to the empty string in the appended
assistant tool-request turn. -/
theorem null_content_passthrough (env : Env) (history : List Turn)
    (q : String) (msg : ChatMessage)
    (hplan : env.llm (planningRequest history q) = PyResult.ok msg)
    (hnull : msg.content = none) :
    ((msg.tool_calls = none ∨ msg.tool_calls = some []) →
      (process_query env history q).history =
        history ++ [Turn.user q, Turn.assistant none] ∧
      (process_query env history q).result = PyResult.ok none) ∧
    (∀ tc tcs, msg.tool_calls = some (tc :: tcs) →
      history ++ [Turn.user q, Turn.assistantCalls "" (tc :: tcs)] <+:
        (process_query env history q).history) := by
  constructor
  · intro hcalls
    rw [process_query_no_tools env history q msg hplan hcalls, hnull]
    exact ⟨rfl, rfl⟩
  · intro tc tcs hcalls
    have h := process_query_toolreq_kept env history q msg tc tcs hplan hcalls
    unfold historyWithRequest at h
    rw [hnull] at h
    simpa using h

/-- Witness for C10 at concrete environments, one per branch. -/
theorem null_content_passthrough_witness :
    ((process_query envNull [] "Hi").history =
      [Turn.user "Hi", Turn.assistant none] ∧
     (process_query envNull [] "Hi").result = PyResult.ok none) ∧
    [Turn.user "hello", Turn.assistantCalls "" [call_all]] <+:
      (process_query env1 [] "hello").history := by
  constructor
  · have h := (null_content_passthrough envNull [] "Hi" ⟨none, none⟩
      rfl rfl).1 (Or.inl rfl)
    exact ⟨by simpa using h.1, h.2⟩
  · have h := (null_content_passthrough env1 [] "hello"
      ⟨none, some [call_all]⟩ rfl rfl).2 call_all [] rfl
    simpa using h

/-- C6: every turn issues at most two model requests; the first is the
planning request (with the tool registry); any later request is a
finalization request carrying the same fixed system instruction and a
history extending into the final one, but no tool registry and no tool
choice; and every dispatch of the turn comes from the planning response's
requested calls — the finalization response can never add dispatches. -/
theorem single_tool_round (env : Env) (history : List Turn) (q : String) :
    (process_query env history q).requests.take 1 =
      [planningRequest history q] ∧
    (process_query env history q).requests.length ≤ 2 ∧
    (∀ r ∈ (process_query env history q).requests.drop 1,
      r.tools = none ∧ r.tool_choice = none ∧ r.system = system_prompt ∧
      r.messages <+: (process_query env history q).history) ∧
    (∀ msg calls, env.llm (planningRequest history q) = PyResult.ok msg →
      msg.tool_calls = some calls →
      (process_query env history q).dispatched.length ≤ calls.length ∧
      ∀ p ∈ (process_query env history q).dispatched,
        p.1 ∈ calls.map ToolCall.name) := by
  unfold process_query
  dsimp only
  cases hplan : env.llm (planningRequest history q) with
  | exn e =>
    dsimp only
    refine ⟨rfl, by simp, by simp, ?_⟩
    intro msg calls hok hc
    cases hok
  | ok msg =>
    dsimp only
    cases hcalls : msg.tool_calls with
    | none =>
      dsimp only
      refine ⟨rfl, by simp, by simp, ?_⟩
      intro msg2 calls hok hc
      injection hok with hmsg
      subst hmsg
      rw [hcalls] at hc
      cases hc
    | some calls0 =>
      cases calls0 with
      | nil =>
        dsimp only
        refine ⟨rfl, by simp, by simp, ?_⟩
        intro msg2 calls hok hc
        injection hok with hmsg
        subst hmsg
        rw [hcalls] at hc
        injection hc with hc2
        subst hc2
        simp
      | cons tc tcs =>
        dsimp only
        have hdisp := runToolCalls_disp_shape env (tc :: tcs)
          ((history ++ [Turn.user q]) ++
            [Turn.assistantCalls (msg.content.getD "") (tc :: tcs)]) []
        cases hrun : runToolCalls env
            ((history ++ [Turn.user q]) ++
              [Turn.assistantCalls (msg.content.getD "") (tc :: tcs)]) []
            (tc :: tcs) with
        | aborted h d e =>
          rw [hrun] at hdisp
          simp only [LoopOutcome.disp, List.nil_append] at hdisp
          obtain ⟨extra, hde, hlen, hnames⟩ := hdisp
          dsimp only
          refine ⟨rfl, by simp, by simp, ?_⟩
          intro msg2 calls hok hc
          injection hok with hmsg
          subst hmsg
          rw [hcalls] at hc
          injection hc with hc2
          subst hc2
          subst hde
          exact ⟨by simpa using hlen, hnames⟩
        | done h3 d =>
          rw [hrun] at hdisp
          simp only [LoopOutcome.disp, List.nil_append] at hdisp
          obtain ⟨extra, hde, hlen, hnames⟩ := hdisp
          dsimp only
          cases hfin : env.llm (finalRequest h3) with
          | exn e =>
            dsimp only
            refine ⟨rfl, by simp, ?_, ?_⟩
            · intro r hr
              simp only [List.drop_succ_cons, List.drop_zero] at hr
              rcases List.mem_singleton.mp hr with rfl
              exact ⟨rfl, rfl, rfl, selfExtends h3⟩
            · intro msg2 calls hok hc
              injection hok with hmsg
              subst hmsg
              rw [hcalls] at hc
              injection hc with hc2
              subst hc2
              subst hde
              exact ⟨by simpa using hlen, hnames⟩
          | ok fin =>
            dsimp only
            refine ⟨rfl, by simp, ?_, ?_⟩
            · intro r hr
              simp only [List.drop_succ_cons, List.drop_zero] at hr
              rcases List.mem_singleton.mp hr with rfl
              exact ⟨rfl, rfl, rfl, appendExtends h3 _⟩
            · intro msg2 calls hok hc
              injection hok with hmsg
              subst hmsg
              rw [hcalls] at hc
              injection hc with hc2
              subst hc2
              subst hde
              exact ⟨by simpa using hlen, hnames⟩

/-- Witness for C6 at a concrete environment with one requested call. -/
theorem single_tool_round_witness :
    (process_query env1 [] "hello").requests.length ≤ 2 ∧
    (process_query env1 [] "hello").dispatched.length ≤ [call_all].length := by
  have h := single_tool_round env1 [] "hello"
  exact ⟨h.2.1, (h.2.2.2 ⟨none, some [call_all]⟩ [call_all] rfl rfl).1⟩

/-- C1 counterexample: a turn whose planning call requests exactly one
tool call grows the history by 4 entries, not by 2 + 1 = 3 as the claim
counts. -/
theorem tool_turn_growth_cex :
    (process_query env1 [] "hello").history =
      [Turn.user "hello", Turn.assistantCalls "" [call_all],
       Turn.toolResult "call_1" "\"data\"", Turn.assistant (some "done")] ∧
    (process_query env1 [] "hello").history.length ≠ 2 + 1 := by
  refine ⟨rfl, ?_⟩
  decide

/-- C1 (amended): for a turn whose planning call requests n ≥ 1 tool
calls, when every call's arguments parse and the finalization call
succeeds, the history grows by exactly 3 + n entries, in order: the user
turn, one assistant turn carrying all n requested calls, n tool-result
turns in request order each carrying its call's id, then the final
assistant turn. -/
theorem tool_turn_growth (env : Env) (history : List Turn) (q : String)
    (msg fin : ChatMessage) (tc : ToolCall) (tcs : List ToolCall)
    (hplan : env.llm (planningRequest history q) = PyResult.ok msg)
    (hcalls : msg.tool_calls = some (tc :: tcs))
    (hp : ∀ c ∈ tc :: tcs, (env.parse c.arguments).isOk = true)
    (hfin : env.llm (finalRequest
        (historyWithResults env history q msg (tc :: tcs))) =
      PyResult.ok fin) :
    (process_query env history q).history =
      history ++
        [Turn.user q, Turn.assistantCalls (msg.content.getD "") (tc :: tcs)] ++
        (tc :: tcs).map (resultTurn env) ++ [Turn.assistant fin.content] ∧
    (process_query env history q).history.length =
      history.length + (3 + (tc :: tcs).length) ∧
    (∀ c, resultTurn env c =
      Turn.toolResult c.id (serializeValue (dispatchValue env c))) ∧
    (process_query env history q).result = PyResult.ok fin.content := by
  rw [process_query_tools_ok env history q msg fin tc tcs hplan hcalls hp hfin]
  refine ⟨?_, ?_, fun c => rfl, rfl⟩
  · unfold historyWithResults historyWithRequest
    simp
  · unfold historyWithResults historyWithRequest
    simp only [List.length_append, List.length_cons, List.length_map,
      List.length_nil]
    omega

/-- Witness for the amended C1 at a concrete one-call environment. -/
theorem tool_turn_growth_witness :
    (process_query env1 [] "hello").history =
      [] ++ [Turn.user "hello", Turn.assistantCalls "" [call_all]] ++
        [call_all].map (resultTurn env1) ++ [Turn.assistant (some "done")] ∧
    (process_query env1 [] "hello").history.length =
      List.length ([] : List Turn) + (3 + 1) ∧
    (process_query env1 [] "hello").result = PyResult.ok (some "done") := by
  have h := tool_turn_growth env1 [] "hello" ⟨none, some [call_all]⟩
    ⟨some "done", none⟩ call_all [] rfl rfl
    (by intro c hc; rcases List.mem_singleton.mp hc with rfl; rfl) rfl
  exact ⟨by simpa using h.1, by simpa using h.2.1, h.2.2.2⟩

/-- C4 counterexample: when the first requested call's serialized
arguments fail to parse, the turn does not proceed — no tool-result turn
is appended for any call, the second requested call is never dispatched,
no finalization request is issued, and the exception propagates to the
caller instead of becoming an error payload. -/
theorem parse_failure_cex :
    (process_query env3 [] "q").result = PyResult.exn "JSONDecodeError" ∧
    (process_query env3 [] "q").history =
      [Turn.user "q", Turn.assistantCalls "" [badCall, goodCall]] ∧
    (process_query env3 [] "q").requests.length = 1 ∧
    (process_query env3 [] "q").dispatched = [] := by
  exact ⟨rfl, rfl, rfl, rfl⟩

/-- C4 (amended): a requested call whose serialized arguments fail to
parse is NOT caught: `json.loads` raises outside the dispatcher's
`try`, the exception propagates, and the turn aborts at that call —
earlier calls keep their tool-result turns and dispatches, the failing
and later calls get neither, and no finalization call is made. -/
theorem parse_failure_aborts (env : Env) (history : List Turn) (q : String)
    (msg : ChatMessage) (pre : List ToolCall) (bad : ToolCall)
    (post : List ToolCall) (e : String)
    (hplan : env.llm (planningRequest history q) = PyResult.ok msg)
    (hcalls : msg.tool_calls = some (pre ++ bad :: post))
    (hp : ∀ c ∈ pre, (env.parse c.arguments).isOk = true)
    (hbad : env.parse bad.arguments = PyResult.exn e) :
    (process_query env history q).result = PyResult.exn e ∧
    (process_query env history q).history =
      historyWithRequest history q msg (pre ++ bad :: post) ++
        pre.map (resultTurn env) ∧
    (process_query env history q).requests = [planningRequest history q] ∧
    (process_query env history q).dispatched = pre.map (dispatchEntry env) := by
  rw [process_query_parse_exn env history q msg pre bad post e hplan hcalls
    hp hbad]
  exact ⟨rfl, rfl, rfl, rfl⟩

/-- Witness for the amended C4 at a concrete environment. -/
theorem parse_failure_aborts_witness :
    (process_query env3 [] "q").result = PyResult.exn "JSONDecodeError" ∧
    (process_query env3 [] "q").requests = [planningRequest [] "q"] := by
  have h := parse_failure_aborts env3 [] "q" ⟨none, some [badCall, goodCall]⟩
    [] badCall [goodCall] "JSONDecodeError" rfl rfl
    (by intro c hc; cases hc) rfl
  exact ⟨h.1, h.2.2.1⟩

/-- Every turn the loop appends is a tool-result turn. -/
theorem runToolCalls_hist_shape (env : Env) (calls : List ToolCall) :
    ∀ history dispatched, ∃ extra,
      (runToolCalls env history dispatched calls).hist = history ++ extra ∧
      ∀ t ∈ extra, ∃ cid body, t = Turn.toolResult cid body := by
  induction calls with
  | nil =>
    intro history dispatched
    exact ⟨[], by simp [runToolCalls, LoopOutcome.hist], by simp⟩
  | cons tc rest ih =>
    intro history dispatched
    unfold runToolCalls
    cases hparse : env.parse tc.arguments with
    | exn e => exact ⟨[], by dsimp only; simp [LoopOutcome.hist], by simp⟩
    | ok args =>
      dsimp only
      cases hex : execute_tool env.backends tc.name args with
      | exn e => exact ⟨[], by dsimp only; simp [LoopOutcome.hist], by simp⟩
      | ok v =>
        dsimp only
        obtain ⟨extra, he, hall⟩ :=
          ih (history ++ [Turn.toolResult tc.id (serializeValue v)])
            (dispatched ++ [(tc.name, args)])
        refine ⟨Turn.toolResult tc.id (serializeValue v) :: extra, ?_, ?_⟩
        · rw [he]; simp
        · intro t ht
          rcases List.mem_cons.mp ht with h | h
          · exact ⟨tc.id, serializeValue v, h⟩
          · exact hall t h

/-- A history consisting of a base, an assistant tool-request turn, and
then only tool-result turns never ends in a plain assistant turn. -/
theorem last_not_assistant (base : List Turn) (cA : String)
    (calls : List ToolCall) (extra : List Turn)
    (hall : ∀ t ∈ extra, ∃ cid body, t = Turn.toolResult cid body)
    (c : Option String) :
    ((base ++ [Turn.assistantCalls cA calls]) ++ extra).getLast? ≠
      some (Turn.assistant c) := by
  rcases List.eq_nil_or_concat extra with rfl | ⟨ys, y, rfl⟩
  · rw [List.append_nil, List.getLast?_concat]
    intro h
    cases h
  · rw [List.concat_eq_append,
      show (base ++ [Turn.assistantCalls cA calls]) ++ (ys ++ [y]) =
      ((base ++ [Turn.assistantCalls cA calls]) ++ ys) ++ [y] by simp,
      List.getLast?_concat]
    obtain ⟨cid, body, rfl⟩ := hall y (by simp)
    intro h
    cases h

/-- C7 counterexample: a turn in which the single model call made (the
planning call) succeeded, yet the turn ends without a final assistant
turn — the abort is caused by an argument parse failure, not by a model
call failure. -/
theorem abort_path_cex :
    (env3.llm (planningRequest [] "q")).isOk = true ∧
    (process_query env3 [] "q").requests = [planningRequest [] "q"] ∧
    (process_query env3 [] "q").result = PyResult.exn "JSONDecodeError" ∧
    (process_query env3 [] "q").history.getLast? =
      some (Turn.assistantCalls "" [badCall, goodCall]) := by
  exact ⟨rfl, rfl, rfl, rfl⟩

/-- C7 (amended): the turns appended before a failure always remain in
history; a turn that returns normally ends with the final assistant turn
carrying the returned text; and a turn that propagates an exception ends
without a final assistant turn, the failure being a planning-call
failure, an argument parse failure of some requested call, or a
finalization-call failure. -/
theorem turn_abort_characterization (env : Env) (history : List Turn)
    (q : String) :
    ((history ++ [Turn.user q]) <+: (process_query env history q).history) ∧
    (∀ c, (process_query env history q).result = PyResult.ok c →
      (process_query env history q).history.getLast? =
        some (Turn.assistant c)) ∧
    (∀ e, (process_query env history q).result = PyResult.exn e →
      (∀ c, (process_query env history q).history.getLast? ≠
        some (Turn.assistant c)) ∧
      (env.llm (planningRequest history q) = PyResult.exn e ∨
       (∃ msg calls tc2,
         env.llm (planningRequest history q) = PyResult.ok msg ∧
         msg.tool_calls = some calls ∧ tc2 ∈ calls ∧
         env.parse tc2.arguments = PyResult.exn e) ∨
       (∃ r, r ∈ (process_query env history q).requests ∧ r.tools = none ∧
         env.llm r = PyResult.exn e))) := by
  unfold process_query
  dsimp only
  cases hplan : env.llm (planningRequest history q) with
  | exn e0 =>
    dsimp only
    refine ⟨selfExtends _, ?_, ?_⟩
    · intro c hc; cases hc
    · intro e he
      injection he with he2
      subst he2
      constructor
      · intro c
        rw [List.getLast?_concat]
        intro h
        cases h
      · exact Or.inl rfl
  | ok msg =>
    dsimp only
    cases hcalls : msg.tool_calls with
    | none =>
      dsimp only
      refine ⟨appendExtends _ _, ?_, ?_⟩
      · intro c hc
        injection hc with hc2
        subst hc2
        rw [show (history ++ [Turn.user q]) ++ [Turn.assistant msg.content] =
          (history ++ [Turn.user q]) ++ [Turn.assistant msg.content] from rfl,
          List.getLast?_concat]
      · intro e he; cases he
    | some calls0 =>
      cases calls0 with
      | nil =>
        dsimp only
        refine ⟨appendExtends _ _, ?_, ?_⟩
        · intro c hc
          injection hc with hc2
          subst hc2
          rw [List.getLast?_concat]
        · intro e he; cases he
      | cons tc tcs =>
        dsimp only
        obtain ⟨extra, hesh, hall⟩ := runToolCalls_hist_shape env (tc :: tcs)
          ((history ++ [Turn.user q]) ++
            [Turn.assistantCalls (msg.content.getD "") (tc :: tcs)]) []
        have hpre := runToolCalls_extends_hist env (tc :: tcs)
          ((history ++ [Turn.user q]) ++
            [Turn.assistantCalls (msg.content.getD "") (tc :: tcs)]) []
        cases hrun : runToolCalls env
            ((history ++ [Turn.user q]) ++
              [Turn.assistantCalls (msg.content.getD "") (tc :: tcs)]) []
            (tc :: tcs) with
        | aborted h d e0 =>
          rw [hrun] at hesh hpre
          simp only [LoopOutcome.hist] at hesh hpre
          dsimp only
          refine ⟨?_, ?_, ?_⟩
          · exact (appendExtends _ _).trans hpre
          · intro c hc; cases hc
          · intro e he
            injection he with he2
            subst he2
            constructor
            · intro c
              rw [hesh]
              exact last_not_assistant (history ++ [Turn.user q])
                (msg.content.getD "") (tc :: tcs) extra hall c
            · obtain ⟨tc2, htc2, hp2⟩ :=
                runToolCalls_aborted_parse env (tc :: tcs) _ _ _ _ _ hrun
              exact Or.inr (Or.inl ⟨msg, tc :: tcs, tc2, rfl, hcalls, htc2, hp2⟩)
        | done h3 d =>
          rw [hrun] at hesh hpre
          simp only [LoopOutcome.hist] at hesh hpre
          dsimp only
          cases hfin : env.llm (finalRequest h3) with
          | exn e0 =>
            dsimp only
            refine ⟨(appendExtends _ _).trans hpre, ?_, ?_⟩
            · intro c hc; cases hc
            · intro e he
              injection he with he2
              subst he2
              constructor
              · intro c
                rw [hesh]
                exact last_not_assistant (history ++ [Turn.user q])
                  (msg.content.getD "") (tc :: tcs) extra hall c
              · exact Or.inr (Or.inr ⟨finalRequest h3, by simp, rfl, hfin⟩)
          | ok fin =>
            dsimp only
            refine ⟨((appendExtends _ _).trans hpre).trans
              (appendExtends _ _), ?_, ?_⟩
            · intro c hc
              injection hc with hc2
              subst hc2
              rw [List.getLast?_concat]
            · intro e he; cases he

/-- Witness for the amended C7: a completed turn ends with the final
assistant turn carrying the returned text. -/
theorem turn_abort_characterization_witness :
    ([] ++ [Turn.user "hello"]) <+: (process_query env1 [] "hello").history ∧
    (process_query env1 [] "hello").history.getLast? =
      some (Turn.assistant (some "done")) := by
  have h := turn_abort_characterization env1 [] "hello"
  exact ⟨h.1, h.2.1 (some "done") rfl⟩
